import Mathlib

/-!
Shallow embedding of the AI-orchestration core: the `CustomMCPConnector` /
`CustomMCPClient` pair (message-rpc transport), the `ContinueConnector`
(plugin-command transport), the capability probe `testContinueCapabilities`,
and the adaptive task router.  External I/O (the MCP server's answers, the
VS Code command results, clock readings) is abstracted as explicit
environment parameters; JavaScript `x || d` defaulting is modelled by
`jsOrNat` / `jsOrString` (falsy `0` / `""` take the default).
-/

/-- JavaScript `x || d` on an optional number: `undefined` and `0` are falsy. -/
def jsOrNat (v : Option Nat) (d : Nat) : Nat :=
  match v with
  | none => d
  | some 0 => d
  | some n => n

/-- JavaScript `x || d` on an optional string: `undefined` and `""` are falsy. -/
def jsOrString (v : Option String) (d : String) : String :=
  match v with
  | none => d
  | some s => if s = "" then d else s

namespace Orch

/-- Task shape used by the connectors and the router (`src/types` Task plus
the spec's required-capabilities field). -/
structure Task where
  id : String
  taskType : String
  description : String
  requiredCapabilities : List String
  language : Option String
  complexity : Option String
deriving DecidableEq

/-- Workspace snapshot handed to `invoke` (file paths and project info only;
the payload details are serialized into the abstracted request). -/
structure WorkspaceContext where
  openFiles : List String
  selection : Option String
  projectType : String
  technologies : List String
  workspaceRoot : String
deriving DecidableEq

/-- Uniform response shape produced by every connector variant. -/
structure ToolResponse where
  success : Bool
  data : Option String
  error : Option String
  toolId : String
  metadata : List (String × String)
deriving DecidableEq

/-- Well-formedness of the uniform shape: a successful response carries a
payload and no error, a failed response carries an error and no payload. -/
def respShapeOK (r : ToolResponse) : Prop :=
  (r.success = true → r.data.isSome = true ∧ r.error = none) ∧
  (r.success = false → r.error.isSome = true ∧ r.data = none)

end Orch

open Orch

namespace CustomMCP

/-- Connector configuration (`CustomMCPConfig` interface). -/
structure Config where
  endpoint : String
  apiKey : Option String
  timeout : Option Nat
  retryAttempts : Option Nat
deriving DecidableEq

/-- The `Partial<CustomMCPConfig>` options accepted by `createCustomMCPConfig`. -/
structure ConfigOptions where
  endpoint : Option String
  apiKey : Option String
  timeout : Option Nat
  retryAttempts : Option Nat
deriving DecidableEq

/-- Configuration helper `createCustomMCPConfig`; `envApiKey` stands for
`process.env.CUSTOM_MCP_API_KEY`. -/
def createCustomMCPConfig (o : ConfigOptions) (envApiKey : Option String) : Config :=
  { endpoint := jsOrString o.endpoint "ws://localhost:3003"
    apiKey := match o.apiKey with
      | none => envApiKey
      | some k => if k = "" then envApiKey else some k
    timeout := some (jsOrNat o.timeout 30000)
    retryAttempts := some (jsOrNat o.retryAttempts 3) }

/-- Effective retry bound inside `executeWithRetry`:
`this.config.retryAttempts || 3`. -/
def effMaxRetries (cfg : Config) : Nat := jsOrNat cfg.retryAttempts 3

/-- Effective client timeout: `this.config.timeout || 30000`. -/
def effTimeout (cfg : Config) : Nat := jsOrNat cfg.timeout 30000

/-- Characters of a string lower-cased, for the case-insensitive regex tests. -/
def lcChars (s : String) : List Char := s.data.map Char.toLower

/-- Whether `pat` occurs at the start of `l`. -/
def startsWithChars : List Char → List Char → Bool
  | [], _ => true
  | _ :: _, [] => false
  | c :: cs, d :: ds => c == d && startsWithChars cs ds

/-- Whether `pat` occurs contiguously anywhere in `l`. -/
def hasSegment (pat : List Char) : List Char → Bool
  | [] => pat.isEmpty
  | c :: rest => startsWithChars pat (c :: rest) || hasSegment pat rest

/-- Case-insensitive unanchored pattern containment, the effect of
`/pat/i.test(msg)` for the plain-text patterns used in the source. -/
def containsPattern (msg pat : String) : Bool :=
  hasSegment (lcChars pat) (lcChars msg)

/-- The retryable error patterns of `isRetryableError`. -/
def retryablePatterns : List String :=
  ["timeout", "connection reset", "server temporarily unavailable", "rate limit"]

/-- Retry classification `isRetryableError`: some retryable pattern matches
the error message. -/
def isRetryableError (msg : String) : Bool :=
  retryablePatterns.any (containsPattern msg)

/-- The exponential backoff delay of `executeWithRetry`:
`Math.pow(2, attempt) * 1000` milliseconds. -/
def backoffDelayMs (attempt : Nat) : Nat := 2 ^ attempt * 1000

/-- Retry loop body of `executeWithRetry`.  `attempt` is the current
attempt index, `fuel` the number of retries still allowed
(`maxRetries - attempt`), `f attempt` the outcome the environment gives the
request on that attempt.  Returns the final outcome and the number of
attempts performed. -/
def executeWithRetryAux {α : Type} (f : Nat → Except String α) :
    Nat → Nat → Except String α × Nat
  | attempt, fuel =>
    match f attempt with
    | .ok r => (.ok r, attempt + 1)
    | .error e =>
      match fuel with
      | 0 => (.error e, attempt + 1)
      | fuel + 1 =>
        if isRetryableError e then executeWithRetryAux f (attempt + 1) fuel
        else (.error e, attempt + 1)

/-- The `executeWithRetry` loop: attempts `0..maxRetries`, retrying only
retryable errors, surfacing the last error otherwise. -/
def executeWithRetry {α : Type} (maxRetries : Nat) (f : Nat → Except String α) :
    Except String α × Nat :=
  executeWithRetryAux f 0 maxRetries

/-- An MCP tool descriptor (`CustomMCPTool`); the schemas are opaque blobs. -/
structure MCPTool where
  name : String
  description : String
  inputSchema : String
  outputSchema : String
deriving DecidableEq

/-- A successful `tools/call` answer: the `result` payload plus the token
count the connector copies into its metadata. -/
structure MCPResponse where
  result : String
  tokensUsed : Nat
deriving DecidableEq

/-- The fixed task-type-to-tool-name table inside `mapTaskToMCPTool`. -/
def taskToToolMap (taskType : String) : Option String :=
  if taskType = "analysis" then some "code-analyzer"
  else if taskType = "optimization" then some "performance-optimizer"
  else if taskType = "security" then some "security-scanner"
  else if taskType = "refactoring" then some "code-refactorer"
  else if taskType = "documentation" then some "doc-generator"
  else none

/-- Tool lookup `mapTaskToMCPTool`: the mapped name must also be among the
tools the server listed, otherwise `null`. -/
def mapTaskToMCPTool (availableTools : List MCPTool) (task : Task) : Option MCPTool :=
  (taskToToolMap task.taskType).bind fun toolName =>
    availableTools.find? fun tool => tool.name == toolName

/-- Per-invocation environment: the outcome of `connect()` (initialization
plus `listTools`), and the server's answer to the `tools/call` request on
each attempt.  Wall-clock readings are not modelled; the `executionTime`
metadata value is abstracted as `"elapsed-ms"`. -/
structure InvokeEnv where
  connectResult : Except String Unit
  callResult : Nat → Except String MCPResponse

/-- The in-band failure response built by the `catch` block of `invoke`. -/
def failureResponse (cfg : Config) (msg : String) : ToolResponse :=
  { success := false
    data := none
    error := some msg
    toolId := "custom-mcp"
    metadata := [("errorType", "Error"),
                 ("retryAttempts", toString (jsOrNat cfg.retryAttempts 0))] }

/-- The success response built by `invoke` from the server's answer. -/
def successResponse (tool : MCPTool) (resp : MCPResponse) : ToolResponse :=
  { success := true
    data := some resp.result
    error := none
    toolId := "custom-mcp"
    metadata := [("toolUsed", tool.name),
                 ("executionTime", "elapsed-ms"),
                 ("tokensUsed", toString resp.tokensUsed)] }

/-- The `CustomMCPConnector.invoke` method.  The returned number counts the
`tools/call` requests actually sent to the server.  A `connect()` failure
happens before the `try` block and is therefore thrown
(the `Except.error` of the outer monad); everything inside the `try` is
caught and reported in-band. -/
def invoke (cfg : Config) (availableTools : List MCPTool) (task : Task)
    (_ctx : WorkspaceContext) (env : InvokeEnv) : Except String (ToolResponse × Nat) :=
  match env.connectResult with
  | .error e => .error e
  | .ok _ =>
    match mapTaskToMCPTool availableTools task with
    | none =>
      .ok (failureResponse cfg ("No MCP tool available for task type: " ++ task.taskType), 0)
    | some tool =>
      match executeWithRetry (effMaxRetries cfg) env.callResult with
      | (.ok resp, n) => .ok (successResponse tool resp, n)
      | (.error e, n) => .ok (failureResponse cfg e, n)

/-- The `CustomMCPConnector.testHealth` method: connect, send a `ping`, and
compare the result with `"pong"`; any thrown error is caught and turns into
`false`. -/
def testHealth (connectResult : Except String Unit)
    (pingResult : Except String String) : Bool :=
  match connectResult with
  | .error _ => false
  | .ok _ =>
    match pingResult with
    | .error _ => false
    | .ok r => r == "pong"

/-- State of the `CustomMCPClient`: whether the websocket is open, the
request-id counter, and the ids in the pending-request table. -/
structure ClientState where
  wsOpen : Bool
  requestId : Nat
  pending : List Nat
deriving DecidableEq

/-- A fresh `new CustomMCPClient(...)`. -/
def initClient : ClientState := { wsOpen := true, requestId := 0, pending := [] }

/-- Events acting on the pending-request table: `request` registers a new
id, `message` is `handleMessage` for a response id, `fireTimeout` is the
per-request timeout timer firing, `connClosed` the websocket `onclose`
handler, `close` the `close()` method. -/
inductive ClientOp where
  | request
  | message (id : Nat)
  | fireTimeout (id : Nat)
  | connClosed
  | close
deriving DecidableEq

/-- One event step.  Returns the new state and the ids settled (resolved or
rejected, after removal from the table) by the event. -/
def clientStep (s : ClientState) : ClientOp → ClientState × List Nat
  | .request =>
    if s.wsOpen then
      ({ wsOpen := s.wsOpen, requestId := s.requestId + 1,
         pending := (s.requestId + 1) :: s.pending }, [])
    else (s, [])
  | .message id =>
    if id ≠ 0 ∧ id ∈ s.pending then
      ({ s with pending := s.pending.erase id }, [id])
    else (s, [])
  | .fireTimeout id =>
    if id ∈ s.pending then
      ({ s with pending := s.pending.erase id }, [id])
    else (s, [])
  | .connClosed => ({ s with wsOpen := false, pending := [] }, s.pending)
  | .close => ({ wsOpen := false, requestId := s.requestId, pending := [] }, s.pending)

/-- Run a sequence of events, concatenating the settled ids. -/
def clientRun (s : ClientState) : List ClientOp → ClientState × List Nat
  | [] => (s, [])
  | op :: ops =>
    let r := clientStep s op
    let rest := clientRun r.1 ops
    (rest.1, r.2 ++ rest.2)

/-- Invariant of the pending table: no duplicate ids, and every pending id
was drawn from the counter. -/
def ClientInv (s : ClientState) : Prop :=
  s.pending.Nodup ∧ ∀ i ∈ s.pending, i ≤ s.requestId

/-- Outcome of `CustomMCPClient.request` for a single request whose answer
(if any) arrives `respondsAt` milliseconds after sending: the per-request
timer rejects with `Request timeout` at `timeoutMs` unless the answer
arrived strictly earlier. -/
def requestOutcome (timeoutMs : Nat) (respondsAt : Option Nat)
    (res : Except String MCPResponse) : Except String MCPResponse :=
  match respondsAt with
  | none => .error "Request timeout"
  | some t => if t < timeoutMs then res else .error "Request timeout"

/-- State of the `CustomMCPConnector` object itself. -/
structure ConnectorState where
  client : Option ClientState
  availableTools : List MCPTool
deriving DecidableEq

/-- The `CustomMCPConnector.disconnect` method: close and drop the client
if there is one. -/
def disconnect (s : ConnectorState) : ConnectorState :=
  match s.client with
  | some _ => { s with client := none }
  | none => s

end CustomMCP

namespace ContinueExt

/-- The `ContinueConfig` interface.  `maxResponseTime` is declared by the
source but (notably) never read by any handler. -/
structure Config where
  enableChat : Bool
  enableEdit : Bool
  enableCompletion : Bool
  maxResponseTime : Nat
deriving DecidableEq

/-- The `Partial<ContinueConfig>` options of `createContinueConfig`. -/
structure ConfigOptions where
  enableChat : Option Bool
  enableEdit : Option Bool
  enableCompletion : Option Bool
  maxResponseTime : Option Nat
deriving DecidableEq

/-- Configuration helper `createContinueConfig` (`??` nullish defaulting). -/
def createContinueConfig (o : ConfigOptions) : Config :=
  { enableChat := o.enableChat.getD true
    enableEdit := o.enableEdit.getD true
    enableCompletion := o.enableCompletion.getD true
    maxResponseTime := o.maxResponseTime.getD 30000 }

/-- The VS Code extension handle, as far as the connector inspects it. -/
structure Extension where
  isActive : Bool
deriving DecidableEq

/-- Environment of one `invoke`/`testHealth` call: the extension lookup,
the outcome of `activate()` if it is needed, the active editor (its file
name) if any, and the outcome of the `vscode.commands.executeCommand`
call — `none` meaning the command promise never resolves.  Prompt template
text is abstracted to its data dependencies. -/
structure Env where
  extensionHandle : Option Extension
  activateResult : Except String Unit
  activeEditor : Option String
  commandOutcome : Option (Except String String)

/-- Outcome of `ContinueConnector.connect`: missing extension throws
`Continue extension not found`; an inactive extension is activated first. -/
def connectOutcome (env : Env) : Except String Unit :=
  match env.extensionHandle with
  | none => .error "Continue extension not found"
  | some e => if e.isActive then .ok () else env.activateResult

/-- Abstraction of Continue's prompt builders: the prompt text depends on
the task description and the open-file list. -/
def buildPrompt (task : Task) (ctx : WorkspaceContext) : String :=
  task.description ++ " | " ++ String.intercalate ", " ctx.openFiles

/-- The success response shared by the Continue handlers. -/
def successResponse (payload : String) (md : List (String × String)) : ToolResponse :=
  { success := true, data := some payload, error := none, toolId := "continue"
    metadata := md }

/-- The `handleCompletion` handler: requires the completion flag and an
active editor, then awaits `continue.quickEdit`. -/
def handleCompletion (cfg : Config) (_task : Task) (_ctx : WorkspaceContext)
    (env : Env) : Option (Except String ToolResponse) :=
  if !cfg.enableCompletion then some (.error "Completion not enabled for Continue")
  else
    match env.activeEditor with
    | none => some (.error "No active editor for completion")
    | some ed =>
      match env.commandOutcome with
      | none => none
      | some (.error e) => some (.error e)
      | some (.ok r) =>
        some (.ok (successResponse r [("method", "quickEdit"), ("editor", ed)]))

/-- The `handlePlanning` handler: requires the chat flag, then awaits
`continue.sendChatMessage` with the planning prompt. -/
def handlePlanning (cfg : Config) (task : Task) (ctx : WorkspaceContext)
    (env : Env) : Option (Except String ToolResponse) :=
  if !cfg.enableChat then some (.error "Chat not enabled for Continue")
  else
    match env.commandOutcome with
    | none => none
    | some (.error e) => some (.error e)
    | some (.ok r) =>
      some (.ok (successResponse r
        [("method", "chat"), ("promptLength", toString (buildPrompt task ctx).length)]))

/-- The `handleRefactoring` handler: requires the edit flag and an active
editor, then awaits `continue.continueEdit`. -/
def handleRefactoring (cfg : Config) (_task : Task) (_ctx : WorkspaceContext)
    (env : Env) : Option (Except String ToolResponse) :=
  if !cfg.enableEdit then some (.error "Edit not enabled for Continue")
  else
    match env.activeEditor with
    | none => some (.error "No active editor for refactoring")
    | some ed =>
      match env.commandOutcome with
      | none => none
      | some (.error e) => some (.error e)
      | some (.ok r) =>
        some (.ok (successResponse r [("method", "continueEdit"), ("fileName", ed)]))

/-- The `handleAnalysis` handler: no flag or editor requirement, awaits
`continue.sendChatMessage` with the analysis prompt. -/
def handleAnalysis (_cfg : Config) (_task : Task) (ctx : WorkspaceContext)
    (env : Env) : Option (Except String ToolResponse) :=
  match env.commandOutcome with
  | none => none
  | some (.error e) => some (.error e)
  | some (.ok r) =>
    some (.ok (successResponse r
      [("method", "chat"), ("filesAnalyzed", toString ctx.openFiles.length)]))

/-- The `handleGenericTask` fallback handler. -/
def handleGenericTask (_cfg : Config) (task : Task) (_ctx : WorkspaceContext)
    (env : Env) : Option (Except String ToolResponse) :=
  match env.commandOutcome with
  | none => none
  | some (.error e) => some (.error e)
  | some (.ok r) =>
    some (.ok (successResponse r [("method", "chat"), ("taskType", task.taskType)]))

/-- The in-band failure response built by the `catch` block of
`ContinueConnector.invoke`. -/
def failureResponse (task : Task) (msg : String) : ToolResponse :=
  { success := false, data := none, error := some msg, toolId := "continue"
    metadata := [("taskType", task.taskType), ("errorType", "Error")] }

/-- The `switch (task.type)` dispatcher inside `invoke`. -/
def dispatch (cfg : Config) (task : Task) (ctx : WorkspaceContext) (env : Env) :
    Option (Except String ToolResponse) :=
  if task.taskType = "completion" then handleCompletion cfg task ctx env
  else if task.taskType = "planning" then handlePlanning cfg task ctx env
  else if task.taskType = "refactoring" then handleRefactoring cfg task ctx env
  else if task.taskType = "analysis" then handleAnalysis cfg task ctx env
  else handleGenericTask cfg task ctx env

/-- The `ContinueConnector.invoke` method.  `connect()` runs before the
`try` block, so its failure is thrown (`some (.error _)`); handler throws
are caught and reported in-band; an unresolved command hangs (`none`). -/
def invoke (cfg : Config) (task : Task) (ctx : WorkspaceContext) (env : Env) :
    Option (Except String ToolResponse) :=
  match connectOutcome env with
  | .error e => some (.error e)
  | .ok _ =>
    match dispatch cfg task ctx env with
    | none => none
    | some (.error e) => some (.ok (failureResponse task e))
    | some (.ok r) => some (.ok r)

/-- The `ContinueConnector.testHealth` method: a fresh extension lookup,
true exactly when the extension is present and active. -/
def testHealth (extensionHandle : Option Extension) : Bool :=
  match extensionHandle with
  | some e => e.isActive
  | none => false

/-- State of the `ContinueConnector` object. -/
structure ConnState where
  extensionHandle : Option Extension
  isInitialized : Bool
deriving DecidableEq

/-- The `ContinueConnector.disconnect` method: clears only the
initialization flag, keeping the extension handle. -/
def disconnect (s : ConnState) : ConnState := { s with isInitialized := false }

/-- The free function `testContinueCapabilities`: empty when the extension
is missing or inactive, otherwise derived from the available commands. -/
def testContinueCapabilities (extensionHandle : Option Extension)
    (commands : List String) : List String :=
  match extensionHandle with
  | none => []
  | some e =>
    if e.isActive then
      (if commands.contains "continue.quickEdit" then ["completion", "refactoring"] else []) ++
      (if commands.contains "continue.sendChatMessage" then
        ["planning", "analysis", "general-purpose"] else []) ++
      (if commands.contains "continue.continueEdit" then ["code-editing"] else [])
    else []

end ContinueExt

namespace Router

/-- Modelled from the spec: the Adaptive Task Router of section 4.5 is not
implemented under `src/` (only declared by the architecture documents and
subclassed by the sketched `HybridTaskRouter`), so its data and algorithm
are taken from the spec's words.  Health states of a provider. -/
inductive Health where
  | healthy
  | degraded
  | unavailable
  | unknown
deriving DecidableEq

/-- Modelled from the spec: a provider's performance history entry, with
success rate and inverse latency already normalized to natural scores and
the recent latency used for tie-breaking. -/
structure PerfRecord where
  successScore : Nat
  invLatencyScore : Nat
  latencyMs : Nat
deriving DecidableEq

/-- Modelled from the spec: one provider as the Router sees it in a
registry snapshot. -/
structure ProviderSnapshot where
  id : String
  probedCaps : List String
  health : Health
  parallelWorthy : Bool
deriving DecidableEq

/-- Modelled from the spec: routing context — scoring weights (left
tunable, per the design notes), the max-parallelism bound, the stored
preference weights and the performance history. -/
structure RouterCtx where
  wCap : Nat
  wPref : Nat
  wPerf : Nat
  wHealth : Nat
  maxParallelism : Nat
  prefs : String → String → Nat
  perf : String → PerfRecord

/-- Modelled from the spec: the routing plan. -/
structure RoutingPlan where
  taskId : String
  primary : Option String
  supporting : List String
  fallback : List String
  degraded : Bool
  rationale : String
deriving DecidableEq

/-- Modelled from the spec: capability fit — an exact task-type match is
weighted highest, a partial/generic match lower. -/
def capFit (task : Task) (p : ProviderSnapshot) : Nat :=
  if p.probedCaps.contains task.taskType then 2 else 1

/-- Modelled from the spec: the health bonus (healthy above degraded). -/
def healthBonus (ctx : RouterCtx) : Health → Nat
  | .healthy => ctx.wHealth
  | _ => 0

/-- Modelled from the spec: a candidate's score, the weighted sum of
capability fit, stored preference weight, normalized performance record and
health bonus. -/
def score (ctx : RouterCtx) (task : Task) (p : ProviderSnapshot) : Nat :=
  ctx.wCap * capFit task p + ctx.wPref * ctx.prefs p.id task.taskType +
    ctx.wPerf * ((ctx.perf p.id).successScore + (ctx.perf p.id).invLatencyScore) +
    healthBonus ctx p.health

/-- Ranking key: descending score, then ascending recent latency, then the
stable provider id. -/
def rankKey (ctx : RouterCtx) (task : Task) (p : ProviderSnapshot) :
    Natᵒᵈ ×ₗ (Nat ×ₗ String) :=
  toLex (OrderDual.toDual (score ctx task p), toLex ((ctx.perf p.id).latencyMs, p.id))

/-- The ranking relation of step 3 of the routing algorithm. -/
def rankLE (ctx : RouterCtx) (task : Task) (a b : ProviderSnapshot) : Prop :=
  rankKey ctx task a ≤ rankKey ctx task b

instance (ctx : RouterCtx) (task : Task) : DecidableRel (rankLE ctx task) := fun a b =>
  inferInstanceAs (Decidable (rankKey ctx task a ≤ rankKey ctx task b))

instance (ctx : RouterCtx) (task : Task) : IsTotal ProviderSnapshot (rankLE ctx task) :=
  ⟨fun a b => le_total (rankKey ctx task a) (rankKey ctx task b)⟩

instance (ctx : RouterCtx) (task : Task) : IsTrans ProviderSnapshot (rankLE ctx task) :=
  ⟨fun _ _ _ hab hbc => le_trans hab hbc⟩

/-- Modelled from the spec: step 1's candidate filter keeps only healthy or
degraded providers (excluding unavailable and unknown). -/
def healthEligible : Health → Bool
  | .healthy => true
  | .degraded => true
  | _ => false

/-- Modelled from the spec: a candidate must cover all required
capabilities and be health-eligible. -/
def eligible (task : Task) (p : ProviderSnapshot) : Bool :=
  healthEligible p.health && task.requiredCapabilities.all fun c => p.probedCaps.contains c

/-- Modelled from the spec: step 5's relaxation keeps health-eligible
providers offering the generic fallback capability. -/
def genericEligible (p : ProviderSnapshot) : Bool :=
  healthEligible p.health && p.probedCaps.contains "generic"

/-- Rank candidates by the step-3 order (descending score, latency and id
tie-breaks). -/
def rankProviders (ctx : RouterCtx) (task : Task) (l : List ProviderSnapshot) :
    List ProviderSnapshot :=
  List.insertionSort (rankLE ctx task) l

/-- Modelled from the spec: steps 4 and 5 — primary is the top candidate,
supporting the next parallel-worthy candidates up to the parallelism bound,
fallback the remaining ranked candidates in order; an empty candidate list
falls back to the ranked generic-capable providers with the degraded flag,
and an empty primary when none exist at all. -/
def planOf (ctx : RouterCtx) (task : Task)
    (ranked rankedRelaxed : List ProviderSnapshot) : RoutingPlan :=
  match ranked with
  | p :: rest =>
    let supp := (rest.filter (·.parallelWorthy)).take ctx.maxParallelism
    let fb := rest.filter fun q => !(supp.contains q)
    { taskId := task.id, primary := some p.id
      supporting := supp.map (·.id), fallback := fb.map (·.id)
      degraded := false
      rationale := "primary " ++ p.id }
  | [] =>
    match rankedRelaxed with
    | p :: rest =>
      { taskId := task.id, primary := some p.id
        supporting := [], fallback := rest.map (·.id)
        degraded := true
        rationale := "degraded: generic fallback " ++ p.id }
    | [] =>
      { taskId := task.id, primary := none, supporting := [], fallback := []
        degraded := true, rationale := "no capable provider" }

/-- Modelled from the spec: `route(task, registrySnapshot, preferences,
performanceHistory) -> RoutingPlan` (preferences and performance history
live in `ctx`). -/
def route (ctx : RouterCtx) (task : Task) (snapshot : List ProviderSnapshot) :
    RoutingPlan :=
  planOf ctx task
    (rankProviders ctx task (snapshot.filter (eligible task)))
    (rankProviders ctx task (snapshot.filter genericEligible))

end Router

namespace CustomMCP

/-- Follows the spec's words, for comparison with `isRetryableError`: the
spec classifies exactly timeout, connection-reset and rate-limit as
retryable. -/
def specRetryablePatterns : List String := ["timeout", "connection reset", "rate limit"]

/-- Follows the spec's words: retry classification over the spec's three
error kinds only. -/
def specIsRetryable (msg : String) : Bool := specRetryablePatterns.any (containsPattern msg)

end CustomMCP

/-- Concrete workspace snapshot used by the witnesses. -/
def sampleCtx : WorkspaceContext :=
  { openFiles := ["main.ts"], selection := none, projectType := "node"
    technologies := ["typescript"], workspaceRoot := "/w" }

/-- A completion task (a type the MCP tool map does not cover). -/
def taskCompletion : Task :=
  { id := "t1", taskType := "completion", description := "complete this"
    requiredCapabilities := ["completion"], language := none, complexity := none }

/-- An analysis task (covered by the MCP tool map). -/
def taskAnalysis : Task :=
  { id := "t2", taskType := "analysis", description := "analyze this"
    requiredCapabilities := ["analysis"], language := none, complexity := none }

/-- The default MCP connector configuration (`createCustomMCPConfig({})`
with no ambient API key). -/
def cfgDefault : CustomMCP.Config :=
  CustomMCP.createCustomMCPConfig ⟨none, none, none, none⟩ none

/-- The default Continue configuration (`createContinueConfig()`). -/
def contCfgDefault : ContinueExt.Config :=
  ContinueExt.createContinueConfig ⟨none, none, none, none⟩

/-- The analyzer tool the sample MCP server advertises. -/
def analyzerTool : CustomMCP.MCPTool :=
  { name := "code-analyzer", description := "analyzes code"
    inputSchema := "obj", outputSchema := "obj" }

theorem executeWithRetryAux_attempts_lb {α : Type} (f : Nat → Except String α) :
    ∀ fuel attempt, attempt + 1 ≤ (CustomMCP.executeWithRetryAux f attempt fuel).2 := by
  intro fuel
  induction fuel with
  | zero =>
    intro attempt
    unfold CustomMCP.executeWithRetryAux
    cases f attempt <;> simp
  | succ fuel ih =>
    intro attempt
    unfold CustomMCP.executeWithRetryAux
    cases f attempt with
    | ok r => simp
    | error e =>
      by_cases hr : CustomMCP.isRetryableError e <;> simp [hr]
      exact le_trans (by omega) (ih (attempt + 1))

theorem executeWithRetryAux_attempts_ub {α : Type} (f : Nat → Except String α) :
    ∀ fuel attempt, (CustomMCP.executeWithRetryAux f attempt fuel).2 ≤ attempt + fuel + 1 := by
  intro fuel
  induction fuel with
  | zero =>
    intro attempt
    unfold CustomMCP.executeWithRetryAux
    cases f attempt <;> simp
  | succ fuel ih =>
    intro attempt
    unfold CustomMCP.executeWithRetryAux
    cases f attempt with
    | ok r => simp
    | error e =>
      by_cases hr : CustomMCP.isRetryableError e <;> simp [hr]
      exact le_trans (ih (attempt + 1)) (by omega)

/-- C3 counterexample: the claim says a default-configured connector
retries at most once (hence at most two attempts), but the default is
`retryAttempts || 3`, so a persistently retryable error is attempted four
times. -/
theorem retry_default_counterexample :
    CustomMCP.effMaxRetries cfgDefault = 3 ∧
    (CustomMCP.executeWithRetry (CustomMCP.effMaxRetries cfgDefault)
      (fun _ => (Except.error "timeout" : Except String CustomMCP.MCPResponse))).2 = 4 ∧
    ¬ ((CustomMCP.executeWithRetry (CustomMCP.effMaxRetries cfgDefault)
      (fun _ => (Except.error "timeout" : Except String CustomMCP.MCPResponse))).2 ≤ 2) := by
  refine ⟨rfl, by decide, by decide⟩

/-- C3 (amended): with the default configuration the retry bound is three
retries, so every invocation makes at most four request attempts, with
exponential backoff delays `2 ^ attempt * 1000` ms between retryable
failures. -/
theorem retry_default_bounded (o : CustomMCP.ConfigOptions) (k : Option String)
    (f : Nat → Except String CustomMCP.MCPResponse) (h : o.retryAttempts = none) :
    CustomMCP.effMaxRetries (CustomMCP.createCustomMCPConfig o k) = 3 ∧
    (CustomMCP.executeWithRetry
      (CustomMCP.effMaxRetries (CustomMCP.createCustomMCPConfig o k)) f).2 ≤ 4 ∧
    CustomMCP.backoffDelayMs 0 = 1000 ∧ CustomMCP.backoffDelayMs 1 = 2000 ∧
    CustomMCP.backoffDelayMs 2 = 4000 := by
  have he : CustomMCP.effMaxRetries (CustomMCP.createCustomMCPConfig o k) = 3 := by
    simp [CustomMCP.effMaxRetries, CustomMCP.createCustomMCPConfig, h, jsOrNat]
  refine ⟨he, ?_, by decide, by decide, by decide⟩
  rw [he]
  exact executeWithRetryAux_attempts_ub f 3 0

/-- C3 witness. -/
theorem retry_default_bounded_witness :
    CustomMCP.effMaxRetries (CustomMCP.createCustomMCPConfig ⟨none, none, none, none⟩ none) = 3 ∧
    (CustomMCP.executeWithRetry
      (CustomMCP.effMaxRetries (CustomMCP.createCustomMCPConfig ⟨none, none, none, none⟩ none))
      (fun _ => (Except.error "timeout" : Except String CustomMCP.MCPResponse))).2 ≤ 4 ∧
    CustomMCP.backoffDelayMs 0 = 1000 ∧ CustomMCP.backoffDelayMs 1 = 2000 ∧
    CustomMCP.backoffDelayMs 2 = 4000 :=
  retry_default_bounded ⟨none, none, none, none⟩ none
    (fun _ => (Except.error "timeout" : Except String CustomMCP.MCPResponse)) rfl

/-- C4 counterexample: the claim says the retryable kinds are exactly
timeout, connection-reset and rate-limit, but the code also classifies
`server temporarily unavailable` as retryable (and does retry it under the
default configuration), while the spec-worded classifier does not. -/
theorem retryable_kinds_counterexample :
    CustomMCP.isRetryableError "server temporarily unavailable" = true ∧
    CustomMCP.specIsRetryable "server temporarily unavailable" = false ∧
    1 < (CustomMCP.executeWithRetry (CustomMCP.effMaxRetries cfgDefault)
      (fun _ => (Except.error "server temporarily unavailable" :
        Except String CustomMCP.MCPResponse))).2 := by
  decide

/-- C4 (amended): a failed request is retried exactly when its error is
classified retryable, the retryable kinds being the four patterns timeout,
connection reset, server temporarily unavailable and rate limit
(case-insensitive message substrings); a non-retryable failure causes no
further attempt. -/
theorem retry_iff_retryable (maxR : Nat) (f : Nat → Except String CustomMCP.MCPResponse)
    (e : String) (hm : 0 < maxR) (h0 : f 0 = Except.error e) :
    (1 < (CustomMCP.executeWithRetry maxR f).2 ↔ CustomMCP.isRetryableError e = true) ∧
    (CustomMCP.isRetryableError e = false →
      CustomMCP.executeWithRetry maxR f = (Except.error e, 1)) ∧
    CustomMCP.isRetryableError "timeout" = true ∧
    CustomMCP.isRetryableError "connection reset" = true ∧
    CustomMCP.isRetryableError "server temporarily unavailable" = true ∧
    CustomMCP.isRetryableError "rate limit" = true ∧
    CustomMCP.isRetryableError "unsupported operation" = false := by
  obtain ⟨m, rfl⟩ : ∃ m, maxR = m + 1 := ⟨maxR - 1, by omega⟩
  have hstep : CustomMCP.executeWithRetryAux f 0 (m + 1) =
      if CustomMCP.isRetryableError e then CustomMCP.executeWithRetryAux f 1 m
      else (Except.error e, 1) := by
    rw [CustomMCP.executeWithRetryAux, h0]
  unfold CustomMCP.executeWithRetry
  rw [hstep]
  by_cases hr : CustomMCP.isRetryableError e = true
  · rw [if_pos hr]
    refine ⟨⟨fun _ => hr, fun _ => ?_⟩, fun hfalse => ?_,
      by decide, by decide, by decide, by decide, by decide⟩
    · exact lt_of_lt_of_le (by omega) (executeWithRetryAux_attempts_lb f m 1)
    · rw [hr] at hfalse
      simp at hfalse
  · rw [if_neg hr]
    exact ⟨⟨fun h => absurd h (by omega), fun h => absurd h hr⟩, fun _ => rfl,
      by decide, by decide, by decide, by decide, by decide⟩

/-- C4 witness. -/
theorem retry_iff_retryable_witness :
    (1 < (CustomMCP.executeWithRetry 3
        (fun _ => (Except.error "timeout" : Except String CustomMCP.MCPResponse))).2 ↔
      CustomMCP.isRetryableError "timeout" = true) ∧
    (CustomMCP.isRetryableError "timeout" = false →
      CustomMCP.executeWithRetry 3
        (fun _ => (Except.error "timeout" : Except String CustomMCP.MCPResponse)) =
          (Except.error "timeout", 1)) ∧
    CustomMCP.isRetryableError "timeout" = true ∧
    CustomMCP.isRetryableError "connection reset" = true ∧
    CustomMCP.isRetryableError "server temporarily unavailable" = true ∧
    CustomMCP.isRetryableError "rate limit" = true ∧
    CustomMCP.isRetryableError "unsupported operation" = false :=
  retry_iff_retryable 3 (fun _ => (Except.error "timeout" : Except String CustomMCP.MCPResponse))
    "timeout" (by decide) rfl

/-- C5: a task whose type has no mapped MCP tool fails immediately in-band
with the unsupported-operation message, sends no request to the server and
performs no retry (zero attempts). -/
theorem invoke_unsupported_immediate (cfg : CustomMCP.Config)
    (tools : List CustomMCP.MCPTool) (task : Task) (ctx : WorkspaceContext)
    (env : CustomMCP.InvokeEnv) (hc : env.connectResult = Except.ok ())
    (hm : CustomMCP.mapTaskToMCPTool tools task = none) :
    CustomMCP.invoke cfg tools task ctx env =
      Except.ok (CustomMCP.failureResponse cfg
        ("No MCP tool available for task type: " ++ task.taskType), 0) ∧
    (CustomMCP.failureResponse cfg
      ("No MCP tool available for task type: " ++ task.taskType)).success = false := by
  constructor
  · simp [CustomMCP.invoke, hc, hm]
  · rfl

/-- C5 witness: a `completion` task has no MCP tool mapping. -/
theorem invoke_unsupported_immediate_witness :
    CustomMCP.invoke cfgDefault [analyzerTool] taskCompletion sampleCtx
      ⟨Except.ok (), fun _ => Except.error "never sent"⟩ =
      Except.ok (CustomMCP.failureResponse cfgDefault
        ("No MCP tool available for task type: " ++ taskCompletion.taskType), 0) ∧
    (CustomMCP.failureResponse cfgDefault
      ("No MCP tool available for task type: " ++ taskCompletion.taskType)).success = false :=
  invoke_unsupported_immediate cfgDefault [analyzerTool] taskCompletion sampleCtx
    _ rfl (by decide)

theorem handleCompletion_ok_shape (cfg : ContinueExt.Config) (task : Task)
    (ctx : WorkspaceContext) (env : ContinueExt.Env) (r : ToolResponse)
    (h : ContinueExt.handleCompletion cfg task ctx env = some (Except.ok r)) :
    respShapeOK r ∧ r.toolId = "continue" := by
  unfold ContinueExt.handleCompletion at h
  repeat' split at h
  all_goals simp at h
  all_goals subst h
  all_goals simp [ContinueExt.successResponse, respShapeOK]

theorem handlePlanning_ok_shape (cfg : ContinueExt.Config) (task : Task)
    (ctx : WorkspaceContext) (env : ContinueExt.Env) (r : ToolResponse)
    (h : ContinueExt.handlePlanning cfg task ctx env = some (Except.ok r)) :
    respShapeOK r ∧ r.toolId = "continue" := by
  unfold ContinueExt.handlePlanning at h
  repeat' split at h
  all_goals simp at h
  all_goals subst h
  all_goals simp [ContinueExt.successResponse, respShapeOK]

theorem handleRefactoring_ok_shape (cfg : ContinueExt.Config) (task : Task)
    (ctx : WorkspaceContext) (env : ContinueExt.Env) (r : ToolResponse)
    (h : ContinueExt.handleRefactoring cfg task ctx env = some (Except.ok r)) :
    respShapeOK r ∧ r.toolId = "continue" := by
  unfold ContinueExt.handleRefactoring at h
  repeat' split at h
  all_goals simp at h
  all_goals subst h
  all_goals simp [ContinueExt.successResponse, respShapeOK]

theorem handleAnalysis_ok_shape (cfg : ContinueExt.Config) (task : Task)
    (ctx : WorkspaceContext) (env : ContinueExt.Env) (r : ToolResponse)
    (h : ContinueExt.handleAnalysis cfg task ctx env = some (Except.ok r)) :
    respShapeOK r ∧ r.toolId = "continue" := by
  unfold ContinueExt.handleAnalysis at h
  repeat' split at h
  all_goals simp at h
  all_goals subst h
  all_goals simp [ContinueExt.successResponse, respShapeOK]

theorem handleGenericTask_ok_shape (cfg : ContinueExt.Config) (task : Task)
    (ctx : WorkspaceContext) (env : ContinueExt.Env) (r : ToolResponse)
    (h : ContinueExt.handleGenericTask cfg task ctx env = some (Except.ok r)) :
    respShapeOK r ∧ r.toolId = "continue" := by
  unfold ContinueExt.handleGenericTask at h
  repeat' split at h
  all_goals simp at h
  all_goals subst h
  all_goals simp [ContinueExt.successResponse, respShapeOK]

theorem dispatch_ok_shape (cfg : ContinueExt.Config) (task : Task)
    (ctx : WorkspaceContext) (env : ContinueExt.Env) (r : ToolResponse)
    (h : ContinueExt.dispatch cfg task ctx env = some (Except.ok r)) :
    respShapeOK r ∧ r.toolId = "continue" := by
  unfold ContinueExt.dispatch at h
  split at h
  · exact handleCompletion_ok_shape _ _ _ _ _ h
  · split at h
    · exact handlePlanning_ok_shape _ _ _ _ _ h
    · split at h
      · exact handleRefactoring_ok_shape _ _ _ _ _ h
      · split at h
        · exact handleAnalysis_ok_shape _ _ _ _ _ h
        · exact handleGenericTask_ok_shape _ _ _ _ _ h

/-- C1 counterexample: a connection failure during `invoke` is thrown to
the caller instead of being reported in-band, on both implemented
variants (`connect()` runs before the `try` block). -/
theorem invoke_thrown_counterexample :
    CustomMCP.invoke cfgDefault [analyzerTool] taskAnalysis sampleCtx
      ⟨Except.error "Connection timeout", fun _ => Except.error "x"⟩ =
      Except.error "Connection timeout" ∧
    ContinueExt.invoke contCfgDefault taskAnalysis sampleCtx
      ⟨none, Except.ok (), none, none⟩ =
      some (Except.error "Continue extension not found") :=
  ⟨rfl, rfl⟩

/-- C1 (amended): once `connect()` has succeeded, every invocation outcome
is returned as a uniformly shaped `ToolResponse` — success with payload or
in-band failure with error, same shape on both implemented transport
variants; a connection failure during invoke, however, is thrown to the
caller. -/
theorem invoke_inband_after_connect :
    (∀ (cfg : CustomMCP.Config) (tools : List CustomMCP.MCPTool) (task : Task)
        (ctx : WorkspaceContext) (env : CustomMCP.InvokeEnv),
        env.connectResult = Except.ok () →
        ∃ r n, CustomMCP.invoke cfg tools task ctx env = Except.ok (r, n) ∧
          r.toolId = "custom-mcp" ∧ respShapeOK r) ∧
    (∀ (cfg : ContinueExt.Config) (task : Task) (ctx : WorkspaceContext)
        (env : ContinueExt.Env) (x : Except String ToolResponse),
        ContinueExt.connectOutcome env = Except.ok () →
        ContinueExt.invoke cfg task ctx env = some x →
        ∃ r, x = Except.ok r ∧ r.toolId = "continue" ∧ respShapeOK r) := by
  constructor
  · intro cfg tools task ctx env hc
    cases hm : CustomMCP.mapTaskToMCPTool tools task with
    | none =>
      exact ⟨CustomMCP.failureResponse cfg
          ("No MCP tool available for task type: " ++ task.taskType), 0,
        by simp [CustomMCP.invoke, hc, hm], rfl,
        by simp [respShapeOK, CustomMCP.failureResponse]⟩
    | some tool =>
      rcases hr : CustomMCP.executeWithRetry (CustomMCP.effMaxRetries cfg) env.callResult
        with ⟨res, n⟩
      cases res with
      | ok resp =>
        exact ⟨CustomMCP.successResponse tool resp, n,
          by simp [CustomMCP.invoke, hc, hm, hr], rfl,
          by simp [respShapeOK, CustomMCP.successResponse]⟩
      | error e =>
        exact ⟨CustomMCP.failureResponse cfg e, n,
          by simp [CustomMCP.invoke, hc, hm, hr], rfl,
          by simp [respShapeOK, CustomMCP.failureResponse]⟩
  · intro cfg task ctx env x hc hx
    cases hd : ContinueExt.dispatch cfg task ctx env with
    | none => simp [ContinueExt.invoke, hc, hd] at hx
    | some v =>
      cases v with
      | error e =>
        simp [ContinueExt.invoke, hc, hd] at hx
        exact ⟨ContinueExt.failureResponse task e, hx.symm, rfl,
          by simp [respShapeOK, ContinueExt.failureResponse]⟩
      | ok r =>
        simp [ContinueExt.invoke, hc, hd] at hx
        obtain ⟨hshape, hid⟩ := dispatch_ok_shape cfg task ctx env r hd
        exact ⟨r, hx.symm, hid, hshape⟩

/-- C1 witness. -/
theorem invoke_inband_after_connect_witness :
    (∃ r n, CustomMCP.invoke cfgDefault [analyzerTool] taskAnalysis sampleCtx
        ⟨Except.ok (), fun _ => Except.ok ⟨"report", 42⟩⟩ = Except.ok (r, n) ∧
        r.toolId = "custom-mcp" ∧ respShapeOK r) ∧
    (∃ r, (Except.ok (ContinueExt.successResponse "r0"
          [("method", "quickEdit"), ("editor", "main.ts")]) :
        Except String ToolResponse) = Except.ok r ∧
        r.toolId = "continue" ∧ respShapeOK r) :=
  ⟨invoke_inband_after_connect.1 cfgDefault [analyzerTool] taskAnalysis sampleCtx
      ⟨Except.ok (), fun _ => Except.ok ⟨"report", 42⟩⟩ rfl,
   invoke_inband_after_connect.2 contCfgDefault taskCompletion sampleCtx
      ⟨some ⟨true⟩, Except.ok (), some "main.ts", some (Except.ok "r0")⟩
      (Except.ok (ContinueExt.successResponse "r0"
        [("method", "quickEdit"), ("editor", "main.ts")])) rfl rfl⟩

/-- C6: evaluation of the code at the failing input.  The Continue variant
awaits `continue.quickEdit` with no timer — `maxResponseTime` is configured
(30000 ms by default) but never consulted — so an unresolved command makes
`invoke` hang instead of failing with a timeout error, while the MCP
client's `request` does reject unanswered requests with `Request timeout`
(bounded by the connector-level `config.timeout`, not the task's
deadline). -/
theorem continue_invoke_hangs :
    ContinueExt.invoke contCfgDefault taskCompletion sampleCtx
      ⟨some ⟨true⟩, Except.ok (), some "main.ts", none⟩ = none ∧
    contCfgDefault.maxResponseTime = 30000 ∧
    (∀ (t : Nat) (res : Except String CustomMCP.MCPResponse),
      CustomMCP.requestOutcome t none res = Except.error "Request timeout") ∧
    (∀ (cfg : CustomMCP.Config) (t : Nat) (res : Except String CustomMCP.MCPResponse),
      CustomMCP.effTimeout cfg ≤ t →
      CustomMCP.requestOutcome (CustomMCP.effTimeout cfg) (some t) res =
        Except.error "Request timeout") := by
  refine ⟨rfl, rfl, fun t res => rfl, fun cfg t res h => ?_⟩
  unfold CustomMCP.requestOutcome
  show (if t < CustomMCP.effTimeout cfg then res else Except.error "Request timeout") =
    Except.error "Request timeout"
  rw [if_neg (by omega)]

/-- C6 witness. -/
theorem continue_invoke_hangs_witness :
    ContinueExt.invoke contCfgDefault taskCompletion sampleCtx
      ⟨some ⟨true⟩, Except.ok (), some "main.ts", none⟩ = none ∧
    CustomMCP.requestOutcome (CustomMCP.effTimeout cfgDefault) (some 40000)
      (Except.ok ⟨"late", 1⟩) = Except.error "Request timeout" :=
  ⟨continue_invoke_hangs.1,
   continue_invoke_hangs.2.2.2 cfgDefault 40000 (Except.ok ⟨"late", 1⟩) (by decide)⟩

/-- C7 counterexample: the Continue connector's `disconnect` does not
release the transport reference — the extension handle survives
disconnection (only the initialization flag is cleared). -/
theorem continue_disconnect_keeps_handle :
    (ContinueExt.disconnect ⟨some ⟨true⟩, true⟩).extensionHandle = some ⟨true⟩ ∧
    (ContinueExt.disconnect ⟨some ⟨true⟩, true⟩).extensionHandle ≠ none :=
  ⟨rfl, by simp [ContinueExt.disconnect]⟩

/-- C7 (amended): `disconnect` is idempotent on both variants; the MCP
connector releases its client reference (and a closed client stays closed
with an empty pending table), while the Continue connector clears only its
initialization flag and keeps the extension handle. -/
theorem disconnect_idempotent :
    (∀ s, CustomMCP.disconnect (CustomMCP.disconnect s) = CustomMCP.disconnect s) ∧
    (∀ s, (CustomMCP.disconnect s).client = none) ∧
    (∀ s, ContinueExt.disconnect (ContinueExt.disconnect s) = ContinueExt.disconnect s) ∧
    (∀ s, (ContinueExt.disconnect s).isInitialized = false) ∧
    (∀ c, (CustomMCP.clientStep (CustomMCP.clientStep c .close).1 .close).1 =
        (CustomMCP.clientStep c .close).1 ∧
      (CustomMCP.clientStep c .close).1.pending = [] ∧
      (CustomMCP.clientStep c .close).1.wsOpen = false) := by
  refine ⟨fun s => ?_, fun s => ?_, fun s => rfl, fun s => rfl, fun c => ⟨rfl, rfl, rfl⟩⟩
  · cases h : s.client <;> simp [CustomMCP.disconnect, h]
  · cases h : s.client <;> simp [CustomMCP.disconnect, h]

/-- C8: the health probes are total Boolean functions (thrown errors are
caught in-band): the MCP probe is true exactly when connection succeeds and
the ping answers `pong`, and the Continue probe is true exactly when the
extension is present and active; any failure yields `false`. -/
theorem health_probe_iff :
    (∀ (c : Except String Unit) (p : Except String String),
      CustomMCP.testHealth c p = true ↔ c = Except.ok () ∧ p = Except.ok "pong") ∧
    (∀ eh : Option ContinueExt.Extension,
      ContinueExt.testHealth eh = true ↔ ∃ e, eh = some e ∧ e.isActive = true) := by
  constructor
  · intro c p
    cases c with
    | error e => simp [CustomMCP.testHealth]
    | ok u =>
      cases u
      cases p with
      | error e => simp [CustomMCP.testHealth]
      | ok s => simp [CustomMCP.testHealth]
  · intro eh
    cases eh with
    | none => simp [ContinueExt.testHealth]
    | some e => simp [ContinueExt.testHealth]

/-- C8 witness. -/
theorem health_probe_iff_witness :
    CustomMCP.testHealth (Except.ok ()) (Except.ok "pong") = true ∧
    ContinueExt.testHealth (some ⟨true⟩) = true ∧
    CustomMCP.testHealth (Except.error "down") (Except.ok "pong") = false :=
  ⟨(health_probe_iff.1 (Except.ok ()) (Except.ok "pong")).mpr ⟨rfl, rfl⟩,
   (health_probe_iff.2 (some ⟨true⟩)).mpr ⟨⟨true⟩, rfl, rfl⟩,
   rfl⟩

/-- C9: a failed capability probe — the Continue extension missing or
inactive — yields the empty capability list rather than an error, and
every probed capability comes from the fixed well-formed vocabulary. -/
theorem probe_failure_empty_caps :
    (∀ (eh : Option ContinueExt.Extension) (cmds : List String),
      (∀ e, eh = some e → e.isActive = false) →
      ContinueExt.testContinueCapabilities eh cmds = []) ∧
    (∀ (eh : Option ContinueExt.Extension) (cmds : List String) (c : String),
      c ∈ ContinueExt.testContinueCapabilities eh cmds →
      c ∈ ["completion", "refactoring", "planning", "analysis",
           "general-purpose", "code-editing"]) := by
  constructor
  · intro eh cmds h
    cases eh with
    | none => rfl
    | some e =>
      have he : e.isActive = false := h e rfl
      simp [ContinueExt.testContinueCapabilities, he]
  · intro eh cmds c hc
    cases eh with
    | none => simp [ContinueExt.testContinueCapabilities] at hc
    | some e =>
      unfold ContinueExt.testContinueCapabilities at hc
      by_cases ha : e.isActive
      · simp [ha] at hc
        simp only [List.mem_cons, List.not_mem_nil, or_false]
        tauto
      · simp [ha] at hc

/-- C9 witness: an inactive extension probes to the empty capability
list. -/
theorem probe_failure_empty_caps_witness :
    ContinueExt.testContinueCapabilities (some ⟨false⟩)
      ["continue.quickEdit", "continue.sendChatMessage"] = [] :=
  probe_failure_empty_caps.1 (some ⟨false⟩)
    ["continue.quickEdit", "continue.sendChatMessage"]
    (fun e he => by injection he with h; rw [← h])

theorem clientStep_facts (s : CustomMCP.ClientState) (op : CustomMCP.ClientOp)
    (h : CustomMCP.ClientInv s) :
    CustomMCP.ClientInv (CustomMCP.clientStep s op).1 ∧
    (CustomMCP.clientStep s op).2.Nodup ∧
    (∀ i ∈ (CustomMCP.clientStep s op).2,
      i ∈ s.pending ∧ i ∉ (CustomMCP.clientStep s op).1.pending) ∧
    s.requestId ≤ (CustomMCP.clientStep s op).1.requestId ∧
    (∀ i ∈ (CustomMCP.clientStep s op).1.pending, i ∈ s.pending ∨ s.requestId < i) := by
  obtain ⟨hn, hb⟩ := h
  cases op with
  | request =>
    by_cases hw : s.wsOpen = true
    · simp only [CustomMCP.clientStep, hw, if_true]
      refine ⟨⟨?_, ?_⟩, List.nodup_nil, by simp, by simp, ?_⟩
      · exact List.nodup_cons.mpr ⟨fun hm => by have := hb _ hm; omega, hn⟩
      · intro i hi
        rcases List.mem_cons.mp hi with rfl | hi2
        · exact Nat.le_refl _
        · exact Nat.le_succ_of_le (hb i hi2)
      · intro i hi
        rcases List.mem_cons.mp hi with rfl | hi2
        · right; omega
        · left; exact hi2
    · simp only [CustomMCP.clientStep, hw, if_false]
      exact ⟨⟨hn, hb⟩, List.nodup_nil, by simp, Nat.le_refl _, fun i hi => Or.inl hi⟩
  | message id =>
    by_cases hc : id ≠ 0 ∧ id ∈ s.pending
    · simp only [CustomMCP.clientStep, if_pos hc]
      refine ⟨⟨hn.erase id, fun i hi => hb i (List.mem_of_mem_erase hi)⟩,
        List.nodup_singleton id, ?_, Nat.le_refl _,
        fun i hi => Or.inl (List.mem_of_mem_erase hi)⟩
      intro i hi
      rw [List.mem_singleton] at hi
      subst hi
      exact ⟨hc.2, fun hmem => ((hn.mem_erase_iff).mp hmem).1 rfl⟩
    · simp only [CustomMCP.clientStep, if_neg hc]
      exact ⟨⟨hn, hb⟩, List.nodup_nil, by simp, Nat.le_refl _, fun i hi => Or.inl hi⟩
  | fireTimeout id =>
    by_cases hc : id ∈ s.pending
    · simp only [CustomMCP.clientStep, if_pos hc]
      refine ⟨⟨hn.erase id, fun i hi => hb i (List.mem_of_mem_erase hi)⟩,
        List.nodup_singleton id, ?_, Nat.le_refl _,
        fun i hi => Or.inl (List.mem_of_mem_erase hi)⟩
      intro i hi
      rw [List.mem_singleton] at hi
      subst hi
      exact ⟨hc, fun hmem => ((hn.mem_erase_iff).mp hmem).1 rfl⟩
    · simp only [CustomMCP.clientStep, if_neg hc]
      exact ⟨⟨hn, hb⟩, List.nodup_nil, by simp, Nat.le_refl _, fun i hi => Or.inl hi⟩
  | connClosed =>
    simp only [CustomMCP.clientStep]
    exact ⟨⟨List.nodup_nil, by simp⟩, hn, fun i hi => ⟨hi, by simp⟩,
      Nat.le_refl _, by simp⟩
  | close =>
    simp only [CustomMCP.clientStep]
    exact ⟨⟨List.nodup_nil, by simp⟩, hn, fun i hi => ⟨hi, by simp⟩,
      Nat.le_refl _, by simp⟩

theorem clientRun_fresh (ops : List CustomMCP.ClientOp) :
    ∀ (s : CustomMCP.ClientState) (i : Nat), CustomMCP.ClientInv s → i ∉ s.pending →
      i ≤ s.requestId →
      i ∉ (CustomMCP.clientRun s ops).2 ∧ i ∉ (CustomMCP.clientRun s ops).1.pending ∧
        i ≤ (CustomMCP.clientRun s ops).1.requestId := by
  induction ops with
  | nil =>
    intro s i h hnp hle
    exact ⟨by simp [CustomMCP.clientRun], hnp, hle⟩
  | cons op ops ih =>
    intro s i h hnp hle
    obtain ⟨hinv, hsnd, hsub, hmono, hpend⟩ := clientStep_facts s op h
    have hstep_not_settled : i ∉ (CustomMCP.clientStep s op).2 :=
      fun hmem => hnp (hsub i hmem).1
    have hstep_not_pending : i ∉ (CustomMCP.clientStep s op).1.pending := by
      intro hmem
      rcases hpend i hmem with hin | hgt
      · exact hnp hin
      · omega
    have hle2 : i ≤ (CustomMCP.clientStep s op).1.requestId := le_trans hle hmono
    obtain ⟨h1, h2, h3⟩ := ih (CustomMCP.clientStep s op).1 i hinv hstep_not_pending hle2
    simp only [CustomMCP.clientRun]
    refine ⟨?_, h2, h3⟩
    intro hmem
    rcases List.mem_append.mp hmem with hm | hm
    · exact hstep_not_settled hm
    · exact h1 hm

theorem clientRun_nodup (ops : List CustomMCP.ClientOp) :
    ∀ s : CustomMCP.ClientState, CustomMCP.ClientInv s →
      CustomMCP.ClientInv (CustomMCP.clientRun s ops).1 ∧
      (CustomMCP.clientRun s ops).2.Nodup := by
  induction ops with
  | nil => intro s h; exact ⟨h, List.nodup_nil⟩
  | cons op ops ih =>
    intro s h
    obtain ⟨hinv, hsnd, hsub, hmono, hpend⟩ := clientStep_facts s op h
    obtain ⟨hinv2, hnd2⟩ := ih (CustomMCP.clientStep s op).1 hinv
    simp only [CustomMCP.clientRun]
    refine ⟨hinv2, List.Nodup.append hsnd hnd2 ?_⟩
    intro i hi hi2
    have hfacts := hsub i hi
    have hle : i ≤ (CustomMCP.clientStep s op).1.requestId :=
      le_trans (h.2 i hfacts.1) hmono
    exact (clientRun_fresh ops (CustomMCP.clientStep s op).1 i hinv hfacts.2 hle).1 hi2

/-- C10: the pending-request table invariant.  From any state satisfying
the invariant: a `request` registers the fresh id `requestId + 1`, which is
not already pending; along any event trace the invariant is preserved and
the settled ids are duplicate-free (each registered request is settled at
most once — a second delivery of the same response id settles nothing);
`close()` empties the table, rejecting exactly the outstanding requests. -/
theorem pending_table_invariant (s : CustomMCP.ClientState)
    (ops : List CustomMCP.ClientOp) (h : CustomMCP.ClientInv s) :
    (s.wsOpen = true →
      (CustomMCP.clientStep s .request).1.requestId = s.requestId + 1 ∧
      s.requestId + 1 ∉ s.pending ∧
      (CustomMCP.clientStep s .request).1.pending = (s.requestId + 1) :: s.pending) ∧
    CustomMCP.ClientInv (CustomMCP.clientRun s ops).1 ∧
    (CustomMCP.clientRun s ops).2.Nodup ∧
    (∀ id, (CustomMCP.clientStep (CustomMCP.clientStep s (.message id)).1
      (.message id)).2 = []) ∧
    (CustomMCP.clientStep s .close).1.pending = [] ∧
    (CustomMCP.clientStep s .close).2 = s.pending := by
  obtain ⟨hinv, hnd⟩ := clientRun_nodup ops s h
  refine ⟨fun hw => ?_, hinv, hnd, fun id => ?_, rfl, rfl⟩
  · have hstep : CustomMCP.clientStep s .request =
        (⟨s.wsOpen, s.requestId + 1, (s.requestId + 1) :: s.pending⟩, []) := by
      simp [CustomMCP.clientStep, hw]
    refine ⟨by rw [hstep], fun hm => ?_, by rw [hstep]⟩
    have := h.2 _ hm
    omega
  · have hnotmem : id ∉ (CustomMCP.clientStep s (.message id)).1.pending ∨
        ¬ (id ≠ 0 ∧ id ∈ (CustomMCP.clientStep s (.message id)).1.pending) := by
      by_cases hc : id ≠ 0 ∧ id ∈ s.pending
      · left
        have h1 : (CustomMCP.clientStep s (.message id)).1.pending = s.pending.erase id := by
          simp [CustomMCP.clientStep, hc]
        rw [h1]
        intro hmem
        exact ((h.1.mem_erase_iff).mp hmem).1 rfl
      · right
        have h1 : (CustomMCP.clientStep s (.message id)).1 = s := by
          simp [CustomMCP.clientStep, hc]
        rw [h1]
        exact hc
    have hcond : ¬ (id ≠ 0 ∧ id ∈ (CustomMCP.clientStep s (.message id)).1.pending) := by
      rcases hnotmem with hnm | hnc
      · exact fun hp => hnm hp.2
      · exact hnc
    generalize (CustomMCP.clientStep s (CustomMCP.ClientOp.message id)).1 = t at hcond ⊢
    simp [CustomMCP.clientStep, hcond]

/-- C10 witness: two requests, one response, then close, from a fresh
client. -/
theorem pending_table_invariant_witness :
    ((CustomMCP.initClient.wsOpen = true →
      (CustomMCP.clientStep CustomMCP.initClient .request).1.requestId =
        CustomMCP.initClient.requestId + 1 ∧
      CustomMCP.initClient.requestId + 1 ∉ CustomMCP.initClient.pending ∧
      (CustomMCP.clientStep CustomMCP.initClient .request).1.pending =
        (CustomMCP.initClient.requestId + 1) :: CustomMCP.initClient.pending) ∧
    CustomMCP.ClientInv (CustomMCP.clientRun CustomMCP.initClient
      [.request, .request, .message 1, .close]).1 ∧
    (CustomMCP.clientRun CustomMCP.initClient
      [.request, .request, .message 1, .close]).2.Nodup ∧
    (∀ id, (CustomMCP.clientStep
      (CustomMCP.clientStep CustomMCP.initClient (.message id)).1 (.message id)).2 = []) ∧
    (CustomMCP.clientStep CustomMCP.initClient .close).1.pending = [] ∧
    (CustomMCP.clientStep CustomMCP.initClient .close).2 =
      CustomMCP.initClient.pending) :=
  pending_table_invariant CustomMCP.initClient [.request, .request, .message 1, .close]
    ⟨List.nodup_nil, fun i hi => absurd hi (List.not_mem_nil i)⟩

theorem sortedPermEq {α : Type} {r : α → α → Prop} :
    ∀ {l₁ l₂ : List α}, (∀ a ∈ l₁, ∀ b ∈ l₁, r a b → r b a → a = b) →
      l₁.Perm l₂ → l₁.Sorted r → l₂.Sorted r → l₁ = l₂ := by
  intro l₁
  induction l₁ with
  | nil =>
    intro l₂ _ hp _ _
    exact hp.nil_eq
  | cons a t ih =>
    intro l₂ ha hp h₁ h₂
    cases l₂ with
    | nil =>
      have := hp.eq_nil
      simp at this
    | cons b t₂ =>
      have hb1 : b ∈ a :: t := hp.symm.subset (List.mem_cons_self b t₂)
      have ha2 : a ∈ b :: t₂ := hp.subset (List.mem_cons_self a t)
      obtain ⟨h1min, h1s⟩ := List.sorted_cons.mp h₁
      obtain ⟨h2min, h2s⟩ := List.sorted_cons.mp h₂
      have hab : a = b := by
        rcases List.mem_cons.mp hb1 with hba | hbt
        · exact hba.symm
        · rcases List.mem_cons.mp ha2 with hab2 | hat2
          · exact hab2
          · exact ha a (List.mem_cons_self a t) b hb1 (h1min b hbt) (h2min a hat2)
      subst hab
      have hpt : t.Perm t₂ := hp.cons_inv
      have hrec := ih
        (fun x hx y hy => ha x (List.mem_cons_of_mem a hx) y (List.mem_cons_of_mem a hy))
        hpt h1s h2s
      rw [hrec]

theorem rank_antisymm_on (ctx : Router.RouterCtx) (task : Task)
    {l : List Router.ProviderSnapshot} (hnd : (l.map (·.id)).Nodup) :
    ∀ a ∈ l, ∀ b ∈ l, Router.rankLE ctx task a b → Router.rankLE ctx task b a → a = b := by
  intro a hma b hmb hab hba
  have hkey : Router.rankKey ctx task a = Router.rankKey ctx task b := le_antisymm hab hba
  have hid : a.id = b.id := by
    simp only [Router.rankKey, toLex_inj, Prod.mk.injEq, OrderDual.toDual_inj] at hkey
    exact hkey.2.2
  exact List.inj_on_of_nodup_map hnd hma hmb hid

theorem nodup_filter_ids (f : Router.ProviderSnapshot → Bool)
    {l : List Router.ProviderSnapshot} (h : (l.map (·.id)).Nodup) :
    ((l.filter f).map (·.id)).Nodup :=
  List.Nodup.sublist (List.Sublist.map _ (List.filter_sublist l)) h

theorem rankProviders_permEq (ctx : Router.RouterCtx) (task : Task)
    {l₁ l₂ : List Router.ProviderSnapshot} (hp : l₁.Perm l₂)
    (hnd : (l₁.map (·.id)).Nodup) :
    Router.rankProviders ctx task l₁ = Router.rankProviders ctx task l₂ := by
  apply sortedPermEq
  · intro a hma b hmb
    exact rank_antisymm_on ctx task hnd a
      ((List.perm_insertionSort (Router.rankLE ctx task) l₁).subset hma) b
      ((List.perm_insertionSort (Router.rankLE ctx task) l₁).subset hmb)
  · exact (List.perm_insertionSort _ l₁).trans
      (hp.trans (List.perm_insertionSort _ l₂).symm)
  · exact List.sorted_insertionSort _ l₁
  · exact List.sorted_insertionSort _ l₂

/-- C2: spec-modelled determinism of `route`.  For a fixed task, weights,
preferences and performance history, the routing plan — primary,
supporting, fallback order, degraded flag and rationale — depends only on
the set of providers in the registry snapshot, not on the order the
snapshot lists them: the score/latency/provider-id tie-break chain is a
total order that is antisymmetric whenever provider ids are unique, so the
ranking (and hence the plan) is uniquely determined. -/
theorem route_deterministic (ctx : Router.RouterCtx) (task : Task)
    {s₁ s₂ : List Router.ProviderSnapshot} (hp : s₁.Perm s₂)
    (hnd : (s₁.map (·.id)).Nodup) :
    Router.route ctx task s₁ = Router.route ctx task s₂ := by
  unfold Router.route
  rw [rankProviders_permEq ctx task (hp.filter (Router.eligible task))
        (nodup_filter_ids (Router.eligible task) hnd),
      rankProviders_permEq ctx task (hp.filter Router.genericEligible)
        (nodup_filter_ids Router.genericEligible hnd)]

/-- C2 witness: two providers with identical scores and latencies, listed
in both orders, give the same plan (the id tie-break decides). -/
theorem route_deterministic_witness :
    Router.route ⟨1, 1, 1, 1, 2, fun _ _ => 1, fun _ => ⟨1, 1, 100⟩⟩ taskCompletion
      [⟨"alpha", ["completion"], .healthy, false⟩, ⟨"beta", ["completion"], .healthy, false⟩] =
    Router.route ⟨1, 1, 1, 1, 2, fun _ _ => 1, fun _ => ⟨1, 1, 100⟩⟩ taskCompletion
      [⟨"beta", ["completion"], .healthy, false⟩, ⟨"alpha", ["completion"], .healthy, false⟩] :=
  route_deterministic ⟨1, 1, 1, 1, 2, fun _ _ => 1, fun _ => ⟨1, 1, 100⟩⟩ taskCompletion
    (List.Perm.swap (⟨"beta", ["completion"], .healthy, false⟩ : Router.ProviderSnapshot)
      (⟨"alpha", ["completion"], .healthy, false⟩ : Router.ProviderSnapshot) [])
    (by decide)
